import Mathlib

/-!
Verification of qiskit/circuit/duration.py: a shallow embedding of the two
functions of the file, duration_in_dt and convert_durations_to_dt, over exact
rationals (the idealization of the host floating-point numbers), together with
theorems settling the specified properties.
-/

/-- Python built-in round on an exact rational: round half to even
(banker's rounding), the semantics of the host round function. -/
def pyRound (x : ℚ) : ℤ :=
  if x - ⌊x⌋ < 1 / 2 then ⌊x⌋
  else if 1 / 2 < x - ⌊x⌋ then ⌊x⌋ + 1
  else if ⌊x⌋ % 2 = 0 then ⌊x⌋ else ⌊x⌋ + 1

/-- Embeds duration_in_dt (duration.py lines 23 to 42). The integer component is
the returned value; the Bool component records whether the UserWarning was
emitted (the warning is non-fatal, so the function is total either way). -/
def duration_in_dt (duration_in_sec dt_in_sec : ℚ) : ℤ × Bool :=
  let res := pyRound (duration_in_sec / dt_in_sec)
  let rounding_error := |duration_in_sec - (res : ℚ) * dt_in_sec|
  (res, decide (rounding_error > 1 / 10 ^ 15))

/-- Python str.endswith, modelled on the character list of the string. -/
def endswith (u t : String) : Bool :=
  List.isSuffixOf t.data u.data

/-- A Python number stored in the duration field: an int or a float
(floats idealized as exact rationals). -/
inductive PyNum where
  | int (n : ℤ)
  | float (q : ℚ)
deriving DecidableEq

/-- The rational value of a stored Python number. -/
def PyNum.toRat : PyNum → ℚ
  | .int n => (n : ℚ)
  | .float q => q

/-- The two fields of the external QuantumCircuit object that
convert_durations_to_dt reads and writes: the optional global duration and the
unit string. -/
structure QuantumCircuit where
  duration : Option PyNum
  unit : String
deriving DecidableEq

/-- The failures convert_durations_to_dt can raise: the CircuitError for an
invalid time unit (duration.py line 68), and a failure propagated from the
prefix-application collaborator on an unrecognized prefix. -/
inductive CircuitError where
  | invalidTimeUnit (u : String)
  | prefixFailure (u : String)
deriving DecidableEq

/-- Modelled from the spec: the external prefix-application collaborator
(qiskit.utils.units, not under src) interprets the metric prefix embedded in a
unit string based on seconds and returns the value scaled to plain seconds; an
unrecognized prefix is a failure that propagates to the caller unhandled. -/
def apply_prefix (value : ℚ) (u : String) : Option ℚ :=
  if u = "s" then some value
  else if u = "ms" then some (value / 10 ^ 3)
  else if u = "us" then some (value / 10 ^ 6)
  else if u = "µs" then some (value / 10 ^ 6)
  else if u = "ns" then some (value / 10 ^ 9)
  else if u = "ps" then some (value / 10 ^ 12)
  else if u = "fs" then some (value / 10 ^ 15)
  else none

/-- Embeds the body of convert_durations_to_dt (duration.py lines 66 to 76)
acting on the circuit object bound to the local variable circ: returns the
state of that object when the body exits, paired with the raised error if any.
The source raises before any write to circ, so on both error paths the state
handed back is the unmodified circ. -/
def convertStep (circ : QuantumCircuit) (dt_in_sec : ℚ) :
    QuantumCircuit × Option CircuitError :=
  match circ.duration with
  | none => (circ, none)
  | some d =>
    if circ.unit = "dt" then (circ, none)
    else if endswith circ.unit ("s") = false then
      (circ, some (CircuitError.invalidTimeUnit circ.unit))
    else
      match (if circ.unit = "s" then some d.toRat else apply_prefix d.toRat circ.unit) with
      | none => (circ, some (CircuitError.prefixFailure circ.unit))
      | some duration =>
        (QuantumCircuit.mk (some (PyNum.int (duration_in_dt duration dt_in_sec).1)) ("dt"),
         none)

/-- Outcome of a call to convert_durations_to_dt. qcAfter is the state of the
caller object qc after the call (it is mutated only when inplace is true).
result is the raised error, or the returned value; a returned circuit is paired
with an object identifier: the caller object is object 0 and qc.copy() always
allocates the fresh object 1, so identifier 1 marks an object distinct from the
input. -/
structure ConvertOutcome where
  qcAfter : QuantumCircuit
  result : Except CircuitError (Option (ℕ × QuantumCircuit))

/-- Embeds convert_durations_to_dt (duration.py lines 44 to 80). For
inplace = true the target circ is the caller object itself, whose final state
is qcAfter, and the call returns None; for inplace = false the target is a
fresh copy of qc (object 1, field-identical to qc), the caller object is left
as it was, and the converted copy is the returned value. -/
def convert_durations_to_dt (qc : QuantumCircuit) (dt_in_sec : ℚ)
    (inplace : Bool) : ConvertOutcome :=
  let step := convertStep qc dt_in_sec
  match step.2 with
  | some e =>
    { qcAfter := if inplace then step.1 else qc, result := Except.error e }
  | none =>
    if inplace then { qcAfter := step.1, result := Except.ok none }
    else { qcAfter := qc, result := Except.ok (some (1, step.1)) }

/- Helper lemmas. -/

theorem pyRound_sub_abs_le (x : ℚ) : |x - (pyRound x : ℚ)| ≤ 1 / 2 := by
  have h0 : (⌊x⌋ : ℚ) ≤ x := Int.floor_le x
  have h1 : x < ⌊x⌋ + 1 := Int.lt_floor_add_one x
  unfold pyRound
  split_ifs with ha hb hc <;> rw [abs_le] <;> constructor <;> push_cast <;> linarith

theorem pyRound_nearest (x : ℚ) (n : ℤ) :
    |x - (pyRound x : ℚ)| ≤ |x - (n : ℚ)| := by
  by_cases h : n = pyRound x
  · rw [h]
  · have h1 : |x - (pyRound x : ℚ)| ≤ 1 / 2 := pyRound_sub_abs_le x
    have hne : pyRound x - n ≠ 0 := sub_ne_zero.mpr (Ne.symm h)
    have h2 : (1 : ℤ) ≤ |pyRound x - n| := Int.one_le_abs hne
    have h3 : (1 : ℚ) ≤ |(pyRound x : ℚ) - (n : ℚ)| := by
      have hcast : ((pyRound x : ℚ)) - (n : ℚ) = ((pyRound x - n : ℤ) : ℚ) := by
        push_cast
        ring
      rw [hcast, ← Int.cast_abs]
      exact_mod_cast h2
    have h4 : |(pyRound x : ℚ) - (n : ℚ)| ≤ |(pyRound x : ℚ) - x| + |x - (n : ℚ)| :=
      abs_sub_le _ x _
    have h5 : |(pyRound x : ℚ) - x| = |x - (pyRound x : ℚ)| := abs_sub_comm _ _
    linarith

theorem convertStep_of_none (qc : QuantumCircuit) (dt : ℚ) (h : qc.duration = none) :
    convertStep qc dt = (qc, none) := by
  simp [convertStep, h]

theorem convertStep_of_dt (qc : QuantumCircuit) (dt : ℚ) (h : qc.unit = "dt") :
    convertStep qc dt = (qc, none) := by
  rcases hd : qc.duration with _ | d <;> simp [convertStep, hd, h]

theorem endswith_ne_dt (u : String) (h : endswith u ("s") = true) : u ≠ "dt" := by
  intro hd
  rw [hd] at h
  exact absurd h (by decide)

/- Claim theorems. -/

/-- C1: for every rational duration d and positive rational step s,
duration_in_dt returns an integer nearest to d / s: no integer n is strictly
closer to d / s than the returned value (round-to-nearest semantics of the
host round function). -/
theorem duration_in_dt_nearest (d s : ℚ) (hs : 0 < s) (n : ℤ) :
    |d / s - ((duration_in_dt d s).1 : ℚ)| ≤ |d / s - (n : ℚ)| :=
  pyRound_nearest (d / s) n

theorem duration_in_dt_nearest_witness :
    (0 : ℚ) < 2 ∧ |(3 : ℚ) / 2 - ((duration_in_dt 3 2).1 : ℚ)| ≤ |(3 : ℚ) / 2 - ((1 : ℤ) : ℚ)| :=
  ⟨by norm_num, duration_in_dt_nearest 3 2 (by norm_num) 1⟩

/-- C2: duration_in_dt emits its warning exactly when the absolute
reconstruction error between d and the rounded value times s exceeds 1e-15,
and whether or not the warning fires the returned value is the same
round of d / s: the warning never aborts and never changes the result. -/
theorem duration_in_dt_warning (d s : ℚ) :
    ((duration_in_dt d s).2 = true ↔
      |d - ((duration_in_dt d s).1 : ℚ) * s| > 1 / 10 ^ 15) ∧
    (duration_in_dt d s).1 = pyRound (d / s) := by
  constructor
  · simp [duration_in_dt]
  · rfl

theorem convertStep_error_state (qc : QuantumCircuit) (dt : ℚ) (e : CircuitError)
    (h : (convertStep qc dt).2 = some e) : (convertStep qc dt).1 = qc := by
  rcases hd : qc.duration with _ | d
  · rw [convertStep_of_none qc dt hd]
  · by_cases h1 : qc.unit = "dt"
    · rw [convertStep_of_dt qc dt h1]
    · by_cases h2 : endswith qc.unit ("s") = false
      · simp [convertStep, hd, h1, h2]
      · rcases hv : (if qc.unit = "s" then some d.toRat else apply_prefix d.toRat qc.unit)
          with _ | v
        · simp [convertStep, hd, h1, h2, hv]
        · simp [convertStep, hd, h1, h2, hv] at h

/-- C3 counterexample: a circuit whose unit is set to Hz (not ending in s, not
dt) but whose duration is None makes convert_durations_to_dt return normally
with no error raised, contradicting the claim as stated. -/
theorem convert_invalid_unit_cex :
    (QuantumCircuit.mk none ("Hz")).unit ≠ "dt" ∧
    endswith (QuantumCircuit.mk none ("Hz")).unit ("s") = false ∧
    (convert_durations_to_dt (QuantumCircuit.mk none ("Hz")) 1 true).result =
      Except.ok none := by
  refine ⟨by decide, by decide, ?_⟩
  simp [convert_durations_to_dt, convertStep]

/-- C3 amended: for every circuit whose duration is set and whose unit does not
end in s and is not dt, convert_durations_to_dt raises the invalid-time-unit
CircuitError naming the offending unit string, surfaced directly to the
caller. -/
theorem convert_invalid_unit (qc : QuantumCircuit) (dt : ℚ) (inplace : Bool) (d : PyNum)
    (h1 : qc.duration = some d) (h2 : endswith qc.unit ("s") = false)
    (h3 : qc.unit ≠ "dt") :
    (convert_durations_to_dt qc dt inplace).result =
      Except.error (CircuitError.invalidTimeUnit qc.unit) := by
  have hstep : convertStep qc dt = (qc, some (CircuitError.invalidTimeUnit qc.unit)) := by
    simp [convertStep, h1, h2, h3]
  cases inplace <;> simp [convert_durations_to_dt, hstep]

theorem convert_invalid_unit_witness :
    (convert_durations_to_dt (QuantumCircuit.mk (some (PyNum.int 1)) ("Hz")) 1 true).result =
      Except.error (CircuitError.invalidTimeUnit ("Hz")) :=
  convert_invalid_unit (QuantumCircuit.mk (some (PyNum.int 1)) ("Hz")) 1 true
    (PyNum.int 1) rfl (by decide) (by decide)

/-- C4: on a circuit whose duration field is None, convert_durations_to_dt with
inplace = true leaves the duration and unit fields unchanged and returns
None. -/
theorem convert_none_inplace (qc : QuantumCircuit) (dt : ℚ) (h : qc.duration = none) :
    (convert_durations_to_dt qc dt true).qcAfter = qc ∧
    (convert_durations_to_dt qc dt true).result = Except.ok none := by
  have hstep := convertStep_of_none qc dt h
  constructor <;> simp [convert_durations_to_dt, hstep]

theorem convert_none_inplace_witness :
    (convert_durations_to_dt (QuantumCircuit.mk none ("ns")) 1 true).qcAfter =
      QuantumCircuit.mk none ("ns") ∧
    (convert_durations_to_dt (QuantumCircuit.mk none ("ns")) 1 true).result =
      Except.ok none :=
  convert_none_inplace (QuantumCircuit.mk none ("ns")) 1 rfl

/-- C5: on a circuit whose unit is dt, convert_durations_to_dt performs no
conversion for either value of inplace: the caller object keeps its duration
and unit, and the returned value is None for inplace = true, or an unmodified
copy for inplace = false. -/
theorem convert_dt_noop (qc : QuantumCircuit) (dt : ℚ) (inplace : Bool)
    (h : qc.unit = "dt") :
    (convert_durations_to_dt qc dt inplace).qcAfter = qc ∧
    (convert_durations_to_dt qc dt inplace).result =
      Except.ok (if inplace then none else some (1, qc)) := by
  have hstep := convertStep_of_dt qc dt h
  cases inplace <;> constructor <;> simp [convert_durations_to_dt, hstep]

theorem convert_dt_noop_witness :
    (convert_durations_to_dt (QuantumCircuit.mk (some (PyNum.int 100)) ("dt")) 1 true).qcAfter =
      QuantumCircuit.mk (some (PyNum.int 100)) ("dt") ∧
    (convert_durations_to_dt (QuantumCircuit.mk (some (PyNum.int 100)) ("dt")) 1 true).result =
      Except.ok none :=
  convert_dt_noop (QuantumCircuit.mk (some (PyNum.int 100)) ("dt")) 1 true rfl

/-- C6 counterexample: on a circuit with duration None and unit ns, the call
with inplace = false returns a copy whose unit is still ns, not dt,
contradicting the claim as stated for every circuit. -/
theorem convert_copy_cex :
    (convert_durations_to_dt (QuantumCircuit.mk none ("ns")) 1 false).result =
      Except.ok (some (1, QuantumCircuit.mk none ("ns"))) ∧
    (QuantumCircuit.mk none ("ns")).unit ≠ "dt" := by
  constructor
  · simp [convert_durations_to_dt, convertStep]
  · decide

/-- C6 amended: convert_durations_to_dt with inplace = false never mutates the
caller object; and on every circuit whose duration is set, whose unit ends in
s, and whose unit is accepted by the prefix scaling step, it returns a distinct
object (object 1, freshly allocated by the copy) whose unit is dt and whose
duration is an integer. -/
theorem convert_copy_props (qc : QuantumCircuit) (dt : ℚ) (d : PyNum) (v : ℚ)
    (h1 : qc.duration = some d) (h2 : endswith qc.unit ("s") = true)
    (h3 : (if qc.unit = "s" then some d.toRat else apply_prefix d.toRat qc.unit) = some v) :
    (∀ qc2 : QuantumCircuit, (convert_durations_to_dt qc2 dt false).qcAfter = qc2) ∧
    (convert_durations_to_dt qc dt false).result =
      Except.ok (some (1,
        QuantumCircuit.mk (some (PyNum.int (duration_in_dt v dt).1)) ("dt"))) := by
  have hne : qc.unit ≠ "dt" := endswith_ne_dt qc.unit h2
  constructor
  · intro qc2
    rcases hs2 : (convertStep qc2 dt).2 with _ | e2 <;>
      simp [convert_durations_to_dt, hs2]
  · have hstep : convertStep qc dt =
        (QuantumCircuit.mk (some (PyNum.int (duration_in_dt v dt).1)) ("dt"), none) := by
      simp [convertStep, h1, h2, hne, h3]
    simp [convert_durations_to_dt, hstep]

theorem convert_copy_props_witness :
    (convert_durations_to_dt (QuantumCircuit.mk none ("xs")) (1 / 1000) false).qcAfter =
      QuantumCircuit.mk none ("xs") ∧
    (convert_durations_to_dt (QuantumCircuit.mk (some (PyNum.float (3 / 1000))) ("s"))
        (1 / 1000) false).result =
      Except.ok (some (1,
        QuantumCircuit.mk (some (PyNum.int (duration_in_dt ((3 : ℚ) / 1000) (1 / 1000)).1))
          ("dt"))) := by
  have h := convert_copy_props (QuantumCircuit.mk (some (PyNum.float (3 / 1000))) ("s"))
    (1 / 1000) (PyNum.float (3 / 1000)) ((3 : ℚ) / 1000) rfl (by decide) rfl
  exact ⟨h.1 (QuantumCircuit.mk none ("xs")), h.2⟩

/-- C7: when the unit is exactly s, the stored duration value is passed
unchanged to the seconds-to-dt converter; when the unit ends in s but is not s,
the value is first scaled by the external prefix-application collaborator and
the scaled value is what reaches the converter. -/
theorem convert_unit_scaling (circ : QuantumCircuit) (dt : ℚ) (d : PyNum)
    (h1 : circ.duration = some d) (h2 : endswith circ.unit ("s") = true) :
    (circ.unit = "s" →
      convertStep circ dt =
        (QuantumCircuit.mk (some (PyNum.int (duration_in_dt d.toRat dt).1)) ("dt"),
         none)) ∧
    (circ.unit ≠ "s" → ∀ v, apply_prefix d.toRat circ.unit = some v →
      convertStep circ dt =
        (QuantumCircuit.mk (some (PyNum.int (duration_in_dt v dt).1)) ("dt"),
         none)) := by
  have hne : circ.unit ≠ "dt" := endswith_ne_dt circ.unit h2
  constructor
  · intro hs
    have hss : endswith ("s") ("s") = true := by decide
    simp [convertStep, h1, hs, hss]
  · intro hs v hv
    simp [convertStep, h1, h2, hne, hs, hv]

theorem convert_unit_scaling_witness :
    convertStep (QuantumCircuit.mk (some (PyNum.int 7)) ("s")) 2 =
      (QuantumCircuit.mk
        (some (PyNum.int (duration_in_dt (PyNum.toRat (PyNum.int 7)) 2).1)) ("dt"),
       none) :=
  (convert_unit_scaling (QuantumCircuit.mk (some (PyNum.int 7)) ("s")) 2
    (PyNum.int 7) rfl (by decide)).1 rfl

/-- C8: the circuit with duration 5 and unit ms, converted in place with a dt
of 1e-6 seconds, ends with unit dt and duration 5000, and no error. -/
theorem convert_example_ms :
    (convert_durations_to_dt (QuantumCircuit.mk (some (PyNum.int 5)) ("ms"))
        (1 / 1000000) true).qcAfter =
      QuantumCircuit.mk (some (PyNum.int 5000)) ("dt") ∧
    (convert_durations_to_dt (QuantumCircuit.mk (some (PyNum.int 5)) ("ms"))
        (1 / 1000000) true).result = Except.ok none := by
  have hcast : PyNum.toRat (PyNum.int 5) = (5 : ℚ) := by
    simp [PyNum.toRat]
  have hes : endswith ("ms") ("s") = true := by decide
  have hdd : (duration_in_dt ((5 : ℚ) / 10 ^ 3) (((1000000 : ℚ))⁻¹)).1 = 5000 := by
    show pyRound (((5 : ℚ) / 10 ^ 3) / ((1000000 : ℚ))⁻¹) = 5000
    have harg : ((5 : ℚ) / 10 ^ 3) / ((1000000 : ℚ))⁻¹ = 5000 := by norm_num
    rw [harg]
    unfold pyRound
    norm_num
  have hstep : convertStep (QuantumCircuit.mk (some (PyNum.int 5)) ("ms")) (1 / 1000000) =
      (QuantumCircuit.mk (some (PyNum.int 5000)) ("dt"), none) := by
    simp [convertStep, apply_prefix, hcast, hes, hdd]
  constructor <;> (simp only [convert_durations_to_dt]; rw [hstep]; simp)

/-- C9: whenever convert_durations_to_dt with inplace = true raises an error,
the caller object keeps exactly the duration and unit it had before the call:
the raise happens before any write to the circuit. -/
theorem convert_error_atomic (qc : QuantumCircuit) (dt : ℚ) (e : CircuitError)
    (h : (convert_durations_to_dt qc dt true).result = Except.error e) :
    (convert_durations_to_dt qc dt true).qcAfter = qc := by
  rcases hs2 : (convertStep qc dt).2 with _ | e2
  · exfalso
    simp [convert_durations_to_dt, hs2] at h
  · have h1 := convertStep_error_state qc dt e2 hs2
    simp [convert_durations_to_dt, hs2, h1]

theorem convert_error_atomic_witness :
    (convert_durations_to_dt (QuantumCircuit.mk (some (PyNum.int 9)) ("Hz")) 1 true).qcAfter =
      QuantumCircuit.mk (some (PyNum.int 9)) ("Hz") :=
  convert_error_atomic (QuantumCircuit.mk (some (PyNum.int 9)) ("Hz")) 1
    (CircuitError.invalidTimeUnit ("Hz")) rfl

/-- C10: when the conversion is skipped (duration None, or unit already dt),
the call with inplace = false still returns a fresh copy (object 1), distinct
from the input, carrying the input's original duration and unit: in particular
the returned unit is not rewritten to dt, and the caller object is
untouched. -/
theorem convert_skip_copy (qc : QuantumCircuit) (dt : ℚ)
    (h : qc.duration = none ∨ qc.unit = "dt") :
    (convert_durations_to_dt qc dt false).qcAfter = qc ∧
    (convert_durations_to_dt qc dt false).result = Except.ok (some (1, qc)) := by
  have hstep : convertStep qc dt = (qc, none) := by
    rcases h with h | h
    · exact convertStep_of_none qc dt h
    · exact convertStep_of_dt qc dt h
  constructor <;> simp [convert_durations_to_dt, hstep]

theorem convert_skip_copy_witness :
    (convert_durations_to_dt (QuantumCircuit.mk (some (PyNum.float 2)) ("dt")) 1 false).qcAfter =
      QuantumCircuit.mk (some (PyNum.float 2)) ("dt") ∧
    (convert_durations_to_dt (QuantumCircuit.mk (some (PyNum.float 2)) ("dt")) 1 false).result =
      Except.ok (some (1, QuantumCircuit.mk (some (PyNum.float 2)) ("dt"))) :=
  convert_skip_copy (QuantumCircuit.mk (some (PyNum.float 2)) ("dt")) 1 (Or.inr rfl)
